import Mathlib

/-!
Verification of `dictionary/static/dictionary/js/accessibility.js`.

The file wires seven DOM event handlers: keyboard activation of
`[role=button], .key-clickable` elements, `.content-skipper` navigation,
removal of the `is-invalid` class on input, one-time auto-expansion of
`textarea.expandable`, arming of the `window.onbeforeunload` guard on
textarea input, and form-submit validation via the external `isValidText`.

We embed the handler bodies as pure functions over an explicit page state
and settle the specified properties about them. The registration utilities
`Handle` and `Handler` live in `./utils` which is outside this tree; where
their behaviour matters (selector filtering, one-time listeners) it is
modelled from the specification and noted at the definition.
-/

namespace Accessibility

/-- A JavaScript value as may be returned by an `onbeforeunload` guard:
`null`, the boolean `true`, or a string. -/
inductive JSVal where
  | vnull : JSVal
  | vtrue : JSVal
  | vstr : String → JSVal
deriving DecidableEq, Repr

/-- JavaScript truthiness restricted to the values a guard can return. -/
def JSVal.truthy : JSVal → Bool
  | .vnull => false
  | .vtrue => true
  | .vstr s => s != ""

/-- The slice of DOM element state the handlers read and write. -/
structure Element where
  tag : String := ""
  role : String := ""
  classes : List String := []
  value : String := ""
  attrs : List (String × String) := []
  styleHeight : Option String := none
  styleTransition : Option String := none
  offsetHeight : Nat := 0
deriving DecidableEq, Repr

/-- `el.getAttribute(name)`: the attribute value, or JavaScript `null`. -/
def Element.getAttr (el : Element) (name : String) : Option String :=
  (el.attrs.find? (fun p => p.1 == name)).map (fun p => p.2)

/-- `event.target.matches("[role=button], .key-clickable")`. -/
def matchesKeyClickable (el : Element) : Bool :=
  el.role == "button" || el.classes.contains "key-clickable"

/-- `el.matches("input.is-invalid")`. -/
def matchesInvalidInput (el : Element) : Bool :=
  el.tag == "input" && el.classes.contains "is-invalid"

/-- Body of the `input.is-invalid` handler: `this.classList.remove("is-invalid")`. -/
def removeInvalidClass (el : Element) : Element :=
  { el with classes := el.classes.filter (fun c => c != "is-invalid") }

/-- The closure `() => this.value || null` installed by the textarea input
handler, as a function of the captured textarea's value at unload time:
a non-empty value (truthy) is returned as is, an empty value yields `null`. -/
def warnIfNonEmptyGuard (v : String) : JSVal :=
  if v == "" then JSVal.vnull else JSVal.vstr v

/-- The closure `() => true` installed by the submit handler's invalid branch. -/
def alwaysWarnGuard (_ : String) : JSVal := JSVal.vtrue

/-- The literal message passed to `gettext` in the submit handler. -/
def forbiddenMsg : String := "this content includes forbidden characters."

/-- The form as seen by the submit handler: `userInput` is the result of
`this.querySelector("#user_content_edit")`, `none` standing for JS `null`. -/
structure Form where
  userInput : Option Element
deriving DecidableEq, Repr

/-- One primitive side effect of the submit handler, in program order. -/
inductive Action where
  | setGuard : Option (String → JSVal) → Action
  | notifyCall : String → String → Action
  | preventDefault : Action

/-- The submit handler as its ordered list of actions plus its return value
(`some false` when it executes `return false`, `none` when it falls through).
It first assigns `window.onbeforeunload = null`; then, if the form holds a
`#user_content_edit` with truthy (non-empty) value that `isValidText`
rejects, it notifies with the localized forbidden-characters message at
severity `"error"`, re-arms the guard to always warn, prevents the default
and returns `false`. -/
def formSubmitActions (isValidText : String → Bool) (gettext : String → String)
    (form : Form) : List Action × Option Bool :=
  let pre : List Action := [Action.setGuard none]
  match form.userInput with
  | some userInput =>
    if userInput.value != "" then
      if !(isValidText userInput.value) then
        (pre ++ [Action.notifyCall (gettext forbiddenMsg) "error",
                 Action.setGuard (some alwaysWarnGuard),
                 Action.preventDefault], some false)
      else (pre, none)
    else (pre, none)
  | none => (pre, none)

/-- Listener bookkeeping and element state for one `textarea.expandable`.
`focusActive`: the focus listener, registered with `{ once: true }`, is still
attached. `tActive`: the `transitionend` listener bound inside the focus
handler is attached. `tRuns`: how many times that listener body has run.
Modelled from the spec: `Handle`/`Handler` (in the external `./utils`) attach
DOM listeners filtered by the selector, forwarding options such as `once`,
and the `transitionend` listener bound via `Handle` is one-time. -/
structure ExpandableState where
  el : Element
  focusActive : Bool
  tActive : Bool
  tRuns : Nat
deriving DecidableEq, Repr

/-- The page state the handlers share: the single `window.onbeforeunload`
slot, notifications shown so far, the navigation location, the document's
other elements, and the tracked `textarea.expandable`. -/
structure PageState where
  guard : Option (String → JSVal)
  notifications : List (String × String)
  loc : String
  elems : List Element
  expand : ExpandableState

/-- Per-event observable effects that are not persistent page state. -/
inductive Eff where
  | prevented : Eff
  | clickDispatched : Element → Eff
  | notified : String → String → Eff
deriving DecidableEq, Repr

/-- `true` exactly on a dispatched synthetic click. -/
def Eff.isClick : Eff → Bool
  | .clickDispatched _ => true
  | _ => false

/-- `true` exactly on a shown notification. -/
def Eff.isNotified : Eff → Bool
  | .notified _ _ => true
  | _ => false

/-- Interpret one submit-handler action on the page state, accumulating the
non-persistent effects. -/
def applyAction : PageState × List Eff → Action → PageState × List Eff
  | (s, effs), Action.setGuard g => ({ s with guard := g }, effs)
  | (s, effs), Action.notifyCall m sev =>
      ({ s with notifications := s.notifications ++ [(m, sev)] },
       effs ++ [Eff.notified m sev])
  | (s, effs), Action.preventDefault => (s, effs ++ [Eff.prevented])

/-- Run a list of submit-handler actions in order. -/
def runActions (s : PageState) (acts : List Action) : PageState × List Eff :=
  acts.foldl applyAction (s, [])

/-- One invocation of a registered handler. `keypress target key` is a key
press bubbling to the body; `skipperClick el` a click on `el`;
`invalidInput i` an input event on the i-th document element;
`expandFocus` / `expandTransitionEnd` the focus and transitionend events on
the tracked expandable textarea; `guardInput` an input event on
`textarea#user_content_edit` or `textarea#message-body`; `submit form` a
submit event on a form. -/
inductive Ev where
  | keypress : Element → String → Ev
  | skipperClick : Element → Ev
  | invalidInput : Nat → Ev
  | expandFocus : Ev
  | expandTransitionEnd : Ev
  | guardInput : Ev
  | submit : Form → Ev

/-- Dispatch one handler invocation, following the handler bodies of
`accessibility.js` line by line. Selector filtering by the registration
utilities is modelled from the spec: a handler only acts on elements
matching its selector. -/
def stepE (isValidText : String → Bool) (gettext : String → String)
    (s : PageState) : Ev → PageState × List Eff
  | Ev.keypress target key =>
      if matchesKeyClickable target && (key == " " || key == "Enter") then
        (s, [Eff.prevented, Eff.clickDispatched target])
      else (s, [])
  | Ev.skipperClick el =>
      if el.classes.contains "content-skipper" then
        ({ s with loc := (el.getAttr "data-href").getD "null" }, [])
      else (s, [])
  | Ev.invalidInput i =>
      match s.elems[i]? with
      | some el =>
          if matchesInvalidInput el then
            ({ s with elems := s.elems.set i (removeInvalidClass el) }, [])
          else (s, [])
      | none => (s, [])
  | Ev.expandFocus =>
      if s.expand.focusActive then
        ({ s with expand :=
            { s.expand with
                el := { s.expand.el with
                          styleHeight :=
                            some (toString (s.expand.el.offsetHeight + 150) ++ "px") },
                focusActive := false,
                tActive := true } }, [])
      else (s, [])
  | Ev.expandTransitionEnd =>
      if s.expand.tActive then
        ({ s with expand :=
            { s.expand with
                el := { s.expand.el with styleTransition := some "none" },
                tActive := false,
                tRuns := s.expand.tRuns + 1 } }, [])
      else (s, [])
  | Ev.guardInput =>
      ({ s with guard := some warnIfNonEmptyGuard }, [])
  | Ev.submit form =>
      runActions s (formSubmitActions isValidText gettext form).1

/-- The state component of one handler invocation. -/
def step (isValidText : String → Bool) (gettext : String → String)
    (s : PageState) (e : Ev) : PageState :=
  (stepE isValidText gettext s e).1

/-- Run a sequence of handler invocations. -/
def run (isValidText : String → Bool) (gettext : String → String)
    (s : PageState) (evs : List Ev) : PageState :=
  evs.foldl (step isValidText gettext) s

/-- The page state right after load: no unload guard installed, no
notifications, the expandable textarea with both of its listeners fresh. -/
def initPage (l0 : String) (es : List Element) (exEl : Element) : PageState :=
  { guard := none, notifications := [], loc := l0, elems := es,
    expand := { el := exEl, focusActive := true, tActive := false, tRuns := 0 } }

/-- The guard slot holds nothing, the warn-if-non-empty closure, or the
always-warn closure. -/
def goodGuard (g : Option (String → JSVal)) : Prop :=
  g = none ∨ g = some warnIfNonEmptyGuard ∨ g = some alwaysWarnGuard

/-- Total budget on the `transitionend` listener: runs so far, plus one if it
is currently attached, plus one if the focus listener that would re-attach it
is still attached. -/
def expTotal (s : PageState) : Nat :=
  s.expand.tRuns + (if s.expand.tActive then 1 else 0) +
    (if s.expand.focusActive then 1 else 0)

/-! ### Concrete fixtures used to instantiate the theorems -/

/-- A validator rejecting every text. -/
def vNone : String → Bool := fun _ => false

/-- A validator accepting every text. -/
def vAll : String → Bool := fun _ => true

/-- Identity localization. -/
def gId : String → String := fun m => m

/-- A `data-href` carrying `.content-skipper` anchor. -/
def elSkip : Element :=
  { tag := "a", classes := ["content-skipper"], attrs := [("data-href", "/x")] }

/-- An element matching `[role=button]`. -/
def elBtn : Element := { role := "button" }

/-- An element matching no selector of interest. -/
def elPlain : Element := { offsetHeight := 40 }

/-- An `input.is-invalid` element. -/
def elInv : Element := { tag := "input", classes := ["is-invalid"] }

/-- A `#user_content_edit` textarea holding text. -/
def elText : Element := { tag := "textarea", value := "hello" }

/-- A concrete freshly loaded page. -/
def s0 : PageState := initPage "/" [elInv] elPlain

/-- A form whose `#user_content_edit` holds `"hello"`. -/
def form0 : Form := { userInput := some elText }

/-- A form with no `#user_content_edit`. -/
def formNone : Form := { userInput := none }

/-! ### Evaluation lemmas for the submit handler -/

theorem stepE_submit_invalid (V : String → Bool) (G : String → String)
    (s : PageState) (form : Form) (el : Element)
    (h1 : form.userInput = some el) (h2 : el.value ≠ "")
    (h3 : V el.value = false) :
    stepE V G s (Ev.submit form) =
      ({ s with guard := some alwaysWarnGuard,
                notifications := s.notifications ++ [(G forbiddenMsg, "error")] },
       [Eff.notified (G forbiddenMsg) "error", Eff.prevented]) := by
  have hb : (el.value != "") = true := by simpa using h2
  simp only [stepE, formSubmitActions, h1, hb, h3, if_true, Bool.not_false]
  rfl

theorem stepE_submit_pass (V : String → Bool) (G : String → String)
    (s : PageState) (form : Form)
    (hpass : ∀ el, form.userInput = some el → el.value = "" ∨ V el.value = true) :
    stepE V G s (Ev.submit form) = ({ s with guard := none }, []) := by
  rcases hj : form.userInput with _ | el
  · simp only [stepE, formSubmitActions, hj]
    rfl
  · rcases hpass el hj with h | h
    · simp only [stepE, formSubmitActions, hj, h]
      rfl
    · by_cases hv : el.value = ""
      · simp only [stepE, formSubmitActions, hj, hv]
        rfl
      · have hb : (el.value != "") = true := by simpa using hv
        simp only [stepE, formSubmitActions, hj, hb, h, if_true, Bool.not_true]
        rfl

theorem formSubmitActions_snd_pass (V : String → Bool) (G : String → String)
    (form : Form)
    (hpass : ∀ el, form.userInput = some el → el.value = "" ∨ V el.value = true) :
    (formSubmitActions V G form).2 = none := by
  rcases hj : form.userInput with _ | el
  · simp only [formSubmitActions, hj]
  · rcases hpass el hj with h | h
    · simp only [formSubmitActions, hj, h]
      rfl
    · by_cases hv : el.value = ""
      · simp only [formSubmitActions, hj, hv]
        rfl
      · have hb : (el.value != "") = true := by simpa using hv
        simp only [formSubmitActions, hj, hb, h, if_true, Bool.not_true]
        rfl

theorem formSubmitActions_head (V : String → Bool) (G : String → String)
    (form : Form) :
    (formSubmitActions V G form).1.head? = some (Action.setGuard none) := by
  rcases hj : form.userInput with _ | el
  · simp only [formSubmitActions, hj]
    rfl
  · simp only [formSubmitActions, hj]
    by_cases hv : (el.value != "") = true <;>
      by_cases hV : V el.value = true <;>
      simp [hv, hV]

/-! ### Frame lemmas: which fields each event leaves alone -/

theorem applyAction_expand (p : PageState × List Eff) (a : Action) :
    ((applyAction p a).1).expand = (p.1).expand := by
  rcases p with ⟨s, effs⟩
  cases a <;> rfl

theorem runActions_expand (acts : List Action) (p : PageState × List Eff) :
    ((acts.foldl applyAction p).1).expand = (p.1).expand := by
  induction acts generalizing p with
  | nil => rfl
  | cons a acts ih => rw [List.foldl_cons, ih, applyAction_expand]

theorem step_expand_guardFree (V : String → Bool) (G : String → String)
    (s : PageState) (form : Form) :
    (step V G s (Ev.submit form)).expand = s.expand := by
  simp only [step, stepE, runActions]
  exact runActions_expand _ _

theorem formSubmitActions_snd_invalid (V : String → Bool) (G : String → String)
    (form : Form) (el : Element)
    (h1 : form.userInput = some el) (h2 : el.value ≠ "")
    (h3 : V el.value = false) :
    (formSubmitActions V G form).2 = some false := by
  have hb : (el.value != "") = true := by simpa using h2
  simp only [formSubmitActions, h1, hb, h3, if_true, Bool.not_false]

/-! ### Guard preservation: the reachable guard values -/

theorem step_goodGuard (V : String → Bool) (G : String → String)
    (s : PageState) (e : Ev) (h : goodGuard s.guard) :
    goodGuard (step V G s e).guard := by
  cases e with
  | keypress t k =>
      simp only [step, stepE]
      split <;> exact h
  | skipperClick el =>
      simp only [step, stepE]
      split <;> exact h
  | invalidInput i =>
      simp only [step, stepE]
      split <;> (try split) <;> exact h
  | expandFocus =>
      simp only [step, stepE]
      split <;> exact h
  | expandTransitionEnd =>
      simp only [step, stepE]
      split <;> exact h
  | guardInput =>
      exact Or.inr (Or.inl rfl)
  | submit form =>
      rcases hj : form.userInput with _ | el
      · have := stepE_submit_pass V G s form (fun el' hel' => by
          rw [hj] at hel'
          cases hel')
        simp only [step, this]
        exact Or.inl rfl
      · by_cases hv : el.value = ""
        · have := stepE_submit_pass V G s form (fun el' hel' => by
            rw [hj] at hel'
            cases hel'
            exact Or.inl hv)
          simp only [step, this]
          exact Or.inl rfl
        · by_cases hV : V el.value = true
          · have := stepE_submit_pass V G s form (fun el' hel' => by
              rw [hj] at hel'
              cases hel'
              exact Or.inr hV)
            simp only [step, this]
            exact Or.inl rfl
          · have h3 : V el.value = false := by
              simpa using hV
            have := stepE_submit_invalid V G s form el hj hv h3
            simp only [step, this]
            exact Or.inr (Or.inr rfl)

theorem run_goodGuard (V : String → Bool) (G : String → String)
    (s : PageState) (evs : List Ev) (h : goodGuard s.guard) :
    goodGuard (run V G s evs).guard := by
  induction evs generalizing s with
  | nil => exact h
  | cons e evs ih => exact ih (step V G s e) (step_goodGuard V G s e h)

/-! ### The once-only listeners of the expandable textarea -/

theorem step_focusActive_false (V : String → Bool) (G : String → String)
    (s : PageState) (e : Ev) (h : s.expand.focusActive = false) :
    (step V G s e).expand.focusActive = false := by
  cases e with
  | keypress t k =>
      simp only [step, stepE]
      split <;> exact h
  | skipperClick el =>
      simp only [step, stepE]
      split <;> exact h
  | invalidInput i =>
      simp only [step, stepE]
      split <;> (try split) <;> exact h
  | expandFocus =>
      simp [step, stepE, h]
  | expandTransitionEnd =>
      simp only [step, stepE]
      split <;> exact h
  | guardInput =>
      exact h
  | submit form =>
      rw [step_expand_guardFree]
      exact h

theorem run_focusActive_false (V : String → Bool) (G : String → String)
    (s : PageState) (evs : List Ev) (h : s.expand.focusActive = false) :
    (run V G s evs).expand.focusActive = false := by
  induction evs generalizing s with
  | nil => exact h
  | cons e evs ih => exact ih (step V G s e) (step_focusActive_false V G s e h)

theorem step_expandFocus_inactive (V : String → Bool) (G : String → String)
    (s : PageState) (h : s.expand.focusActive = false) :
    step V G s Ev.expandFocus = s := by
  simp [step, stepE, h]

theorem step_expTotal_le (V : String → Bool) (G : String → String)
    (s : PageState) (e : Ev) : expTotal (step V G s e) ≤ expTotal s := by
  cases e with
  | keypress t k =>
      simp only [step, stepE]
      split <;> exact Nat.le_refl _
  | skipperClick el =>
      simp only [step, stepE]
      split <;> exact Nat.le_refl _
  | invalidInput i =>
      simp only [step, stepE]
      split <;> (try split) <;> exact Nat.le_refl _
  | expandFocus =>
      by_cases h : s.expand.focusActive = true
      · simp only [step, stepE, h, if_true]
        unfold expTotal
        cases htA : s.expand.tActive <;> simp [h, htA]
      · have h' : s.expand.focusActive = false := by simpa using h
        simp [step, stepE, h']
  | expandTransitionEnd =>
      by_cases h : s.expand.tActive = true
      · simp only [step, stepE, h, if_true]
        unfold expTotal
        cases hf : s.expand.focusActive <;> simp [h, hf]
      · have h' : s.expand.tActive = false := by simpa using h
        simp [step, stepE, h']
  | guardInput =>
      exact Nat.le_refl _
  | submit form =>
      have h := step_expand_guardFree V G s form
      unfold expTotal
      rw [h]

theorem run_expTotal_le (V : String → Bool) (G : String → String)
    (s : PageState) (evs : List Ev) : expTotal (run V G s evs) ≤ expTotal s := by
  induction evs generalizing s with
  | nil => exact Nat.le_refl _
  | cons e evs ih =>
      exact Nat.le_trans (ih (step V G s e)) (step_expTotal_le V G s e)

/-! ### The claims -/

/-- Claim C1: on submit of a form whose `#user_content_edit` holds a non-empty
value rejected by `isValidText`, the handler shows exactly one error
notification carrying the localized forbidden-characters message, sets the
unload guard to the always-warn function, prevents the default submission and
returns `false`. -/
theorem submit_invalid_blocks_and_arms_guard (V : String → Bool)
    (G : String → String) (s : PageState) (form : Form) (el : Element)
    (h1 : form.userInput = some el) (h2 : el.value ≠ "")
    (h3 : V el.value = false) :
    (step V G s (Ev.submit form)).notifications
        = s.notifications ++ [(G forbiddenMsg, "error")] ∧
    (stepE V G s (Ev.submit form)).2
        = [Eff.notified (G forbiddenMsg) "error", Eff.prevented] ∧
    ((stepE V G s (Ev.submit form)).2.countP Eff.isNotified) = 1 ∧
    (step V G s (Ev.submit form)).guard = some alwaysWarnGuard ∧
    (formSubmitActions V G form).2 = some false := by
  have he := stepE_submit_invalid V G s form el h1 h2 h3
  refine ⟨?_, ?_, ?_, ?_, formSubmitActions_snd_invalid V G form el h1 h2 h3⟩
  · rw [step, he]
  · rw [he]
  · rw [he]
    rfl
  · rw [step, he]

/-- Witness for C1 at a rejecting validator and a form holding `"hello"`. -/
theorem submit_invalid_blocks_and_arms_guard_w :
    (step vNone gId s0 (Ev.submit form0)).notifications
        = s0.notifications ++ [(gId forbiddenMsg, "error")] ∧
    (stepE vNone gId s0 (Ev.submit form0)).2
        = [Eff.notified (gId forbiddenMsg) "error", Eff.prevented] ∧
    ((stepE vNone gId s0 (Ev.submit form0)).2.countP Eff.isNotified) = 1 ∧
    (step vNone gId s0 (Ev.submit form0)).guard = some alwaysWarnGuard ∧
    (formSubmitActions vNone gId form0).2 = some false :=
  submit_invalid_blocks_and_arms_guard vNone gId s0 form0 elText rfl
    (by decide) rfl

/-- Claim C2: every submit handler invocation clears the unload guard before
any other action; and when the form has no `#user_content_edit`, or its value
is empty or accepted by `isValidText`, the handler neither prevents default
nor notifies, falls through (returns nothing), and leaves the guard null. -/
theorem submit_clears_guard_first_then_passes (V : String → Bool)
    (G : String → String) (s : PageState) (form : Form) :
    (formSubmitActions V G form).1.head? = some (Action.setGuard none) ∧
    ((∀ el, form.userInput = some el → el.value = "" ∨ V el.value = true) →
      stepE V G s (Ev.submit form) = ({ s with guard := none }, []) ∧
      (formSubmitActions V G form).2 = none) :=
  ⟨formSubmitActions_head V G form, fun hpass =>
    ⟨stepE_submit_pass V G s form hpass,
     formSubmitActions_snd_pass V G form hpass⟩⟩

/-- Witness for C2 at a form with no `#user_content_edit`. -/
theorem submit_clears_guard_first_then_passes_w :
    (formSubmitActions vAll gId formNone).1.head?
        = some (Action.setGuard none) ∧
    (stepE vAll gId s0 (Ev.submit formNone) = ({ s0 with guard := none }, []) ∧
      (formSubmitActions vAll gId formNone).2 = none) :=
  ⟨(submit_clears_guard_first_then_passes vAll gId s0 formNone).1,
   (submit_clears_guard_first_then_passes vAll gId s0 formNone).2
     (fun _ hel => Option.noConfusion hel)⟩

/-- Claim C3: in every state reachable from page load by any sequence of
handler invocations, the unload guard slot holds nothing, the
warn-if-non-empty closure, or the always-warn closure — never any other
guard, and only one at a time (the slot is single). -/
theorem guard_reachable_values (V : String → Bool) (G : String → String)
    (l0 : String) (es : List Element) (exEl : Element) (evs : List Ev) :
    goodGuard ((run V G (initPage l0 es exEl) evs).guard) :=
  run_goodGuard V G (initPage l0 es exEl) evs (Or.inl rfl)

/-- Claim C4: a keypress on a `[role=button], .key-clickable` target with key
Space or Enter prevents the default action and dispatches exactly one
synthetic click on that target. -/
theorem keypress_space_enter_synthesizes_click (V : String → Bool)
    (G : String → String) (s : PageState) (target : Element) (key : String)
    (hm : matchesKeyClickable target = true) (hk : key = " " ∨ key = "Enter") :
    stepE V G s (Ev.keypress target key)
        = (s, [Eff.prevented, Eff.clickDispatched target]) ∧
    ((stepE V G s (Ev.keypress target key)).2.countP Eff.isClick) = 1 := by
  have hc : (matchesKeyClickable target && (key == " " || key == "Enter"))
      = true := by
    rcases hk with h | h <;> simp [hm, h]
  have h1 : stepE V G s (Ev.keypress target key)
      = (s, [Eff.prevented, Eff.clickDispatched target]) := by
    simp [stepE, hc]
  refine ⟨h1, ?_⟩
  rw [h1]
  rfl

/-- Witness for C4 at a `[role=button]` element and the Enter key. -/
theorem keypress_space_enter_synthesizes_click_w :
    stepE vAll gId s0 (Ev.keypress elBtn "Enter")
        = (s0, [Eff.prevented, Eff.clickDispatched elBtn]) ∧
    ((stepE vAll gId s0 (Ev.keypress elBtn "Enter")).2.countP Eff.isClick)
        = 1 :=
  keypress_space_enter_synthesizes_click vAll gId s0 elBtn "Enter"
    (by decide) (Or.inr rfl)

/-- Claim C5: an input event on `textarea#user_content_edit` or
`textarea#message-body` installs the guard that, at unload time, is truthy
exactly when the textarea's value is then non-empty, and yields `null` on an
empty value. -/
theorem textarea_input_arms_unload_guard (V : String → Bool)
    (G : String → String) (s : PageState) (v : String) :
    stepE V G s Ev.guardInput
        = ({ s with guard := some warnIfNonEmptyGuard }, []) ∧
    JSVal.truthy (warnIfNonEmptyGuard v) = !(v == "") ∧
    warnIfNonEmptyGuard "" = JSVal.vnull := by
  refine ⟨rfl, ?_, rfl⟩
  by_cases h : v = ""
  · simp [warnIfNonEmptyGuard, h, JSVal.truthy]
  · simp [warnIfNonEmptyGuard, h, JSVal.truthy, bne]

/-- Claim C6: a first focus on a `textarea.expandable` of rendered height H
sets its height style to H+150 pixels, and — the focus listener being
one-time — any later focus, after any sequence of events, changes nothing. -/
theorem expandable_first_focus_once (V : String → Bool) (G : String → String)
    (s : PageState) (h : s.expand.focusActive = true) :
    (step V G s Ev.expandFocus).expand.el.styleHeight
        = some (toString (s.expand.el.offsetHeight + 150) ++ "px") ∧
    ∀ evs : List Ev,
      step V G (run V G (step V G s Ev.expandFocus) evs) Ev.expandFocus
        = run V G (step V G s Ev.expandFocus) evs := by
  constructor
  · simp [step, stepE, h]
  · intro evs
    apply step_expandFocus_inactive
    apply run_focusActive_false
    simp [step, stepE, h]

/-- Witness for C6 at a fresh page, with an intervening guard-arming input. -/
theorem expandable_first_focus_once_w :
    (step vAll gId s0 Ev.expandFocus).expand.el.styleHeight
        = some (toString (s0.expand.el.offsetHeight + 150) ++ "px") ∧
    step vAll gId (run vAll gId (step vAll gId s0 Ev.expandFocus)
        [Ev.guardInput]) Ev.expandFocus
      = run vAll gId (step vAll gId s0 Ev.expandFocus) [Ev.guardInput] :=
  ⟨(expandable_first_focus_once vAll gId s0 rfl).1,
   (expandable_first_focus_once vAll gId s0 rfl).2 [Ev.guardInput]⟩

/-- Claim C7: the `transitionend` listener bound on first focus of the
expandable textarea is one-time: along every event sequence from page load
its body runs at most once, and whenever it has run it is detached. -/
theorem transitionend_listener_once (V : String → Bool) (G : String → String)
    (l0 : String) (es : List Element) (exEl : Element) (evs : List Ev) :
    (run V G (initPage l0 es exEl) evs).expand.tRuns +
      (if (run V G (initPage l0 es exEl) evs).expand.tActive then 1 else 0)
      ≤ 1 := by
  have h := run_expTotal_le V G (initPage l0 es exEl) evs
  have h0 : expTotal (initPage l0 es exEl) = 1 := rfl
  rw [h0] at h
  unfold expTotal at h
  omega

/-- Claim C8: a click on a `.content-skipper` element whose `data-href` holds
URL X replaces the current location with exactly X. -/
theorem content_skipper_click_replaces_location (V : String → Bool)
    (G : String → String) (s : PageState) (el : Element) (url : String)
    (hc : "content-skipper" ∈ el.classes)
    (ha : el.getAttr "data-href" = some url) :
    (step V G s (Ev.skipperClick el)).loc = url := by
  simp [step, stepE, hc, ha]

/-- Witness for C8 at a skipper anchor pointing at `"/x"`. -/
theorem content_skipper_click_replaces_location_w :
    (step vAll gId s0 (Ev.skipperClick elSkip)).loc = "/x" :=
  content_skipper_click_replaces_location vAll gId s0 elSkip "/x"
    (by decide) (by decide)

/-- Claim C9: an input event on an element matching `input.is-invalid`
removes the `is-invalid` class: afterwards the element's class list no longer
contains it. -/
theorem invalid_input_clears_class (V : String → Bool) (G : String → String)
    (s : PageState) (i : Nat) (el : Element)
    (hget : s.elems[i]? = some el) (hm : matchesInvalidInput el = true) :
    (step V G s (Ev.invalidInput i)).elems[i]?
        = some (removeInvalidClass el) ∧
    "is-invalid" ∉ (removeInvalidClass el).classes := by
  constructor
  · have hi : i < s.elems.length := (List.getElem?_eq_some.mp hget).1
    simp only [step, stepE, hget, hm, if_true]
    exact List.getElem?_set_eq_of_lt _ hi
  · simp [removeInvalidClass, List.mem_filter]

/-- Witness for C9 at the `input.is-invalid` element of the fresh page. -/
theorem invalid_input_clears_class_w :
    (step vAll gId s0 (Ev.invalidInput 0)).elems[0]?
        = some (removeInvalidClass elInv) ∧
    "is-invalid" ∉ (removeInvalidClass elInv).classes :=
  invalid_input_clears_class vAll gId s0 0 elInv rfl (by decide)

/-- Claim C10: a keypress whose target does not match
`[role=button], .key-clickable`, or whose key is neither Space nor Enter, is
a no-op: no click dispatched, no default prevented, and the page state —
guard, classes, styles, everything — unchanged. -/
theorem keypress_nonmatching_noop (V : String → Bool) (G : String → String)
    (s : PageState) (target : Element) (key : String)
    (h : matchesKeyClickable target = false ∨ (key ≠ " " ∧ key ≠ "Enter")) :
    stepE V G s (Ev.keypress target key) = (s, []) := by
  have hc : (matchesKeyClickable target && (key == " " || key == "Enter"))
      = false := by
    rcases h with h | ⟨h1, h2⟩
    · simp [h]
    · simp [h1, h2]
  simp [stepE, hc]

/-- Witness for C10 at a plain element and the `"x"` key. -/
theorem keypress_nonmatching_noop_w :
    stepE vAll gId s0 (Ev.keypress elPlain "x") = (s0, []) :=
  keypress_nonmatching_noop vAll gId s0 elPlain "x" (Or.inl (by decide))

end Accessibility
